import Mathlib

/-!
Verification development for the image-organizer pipeline
(src/image-organizer.js).

The JavaScript source is shallowly embedded: each JS function that the
claims touch is translated into an executable Lean definition of the same
name where possible.  JS runtime errors (thrown exceptions) are modelled
with Except; JS `undefined`/absent values with Option; the numeric NaN
produced by failed Number coercions with Option Int (none = NaN).
String operations are modelled at ASCII scope, which covers every string
the pipeline manufactures (paths, date components, keyword lists).
-/

namespace ImageOrganizer

/-! ## JS string primitives -/

/-- Model of JS String.prototype.toLowerCase at ASCII scope
(the pipeline lower-cases file paths and keyword responses). -/
def jsToLower (s : String) : String :=
  String.mk (s.data.map Char.toLower)

/-- Model of JS String.prototype.trim: strip leading and trailing
whitespace. -/
def jsTrim (s : String) : String :=
  String.mk (((s.data.dropWhile Char.isWhitespace).reverse.dropWhile
    Char.isWhitespace).reverse)

/-- Model of JS String.prototype.endsWith. -/
def jsEndsWith (s suffix : String) : Bool :=
  suffix.data.isSuffixOf s.data

/-- Lexicographic comparison of character lists: the order JS
Array.prototype.sort applies to strings (code points coincide with
UTF-16 code units on the ASCII strings involved). -/
def charListLe : List Char → List Char → Bool
  | [], _ => true
  | _ :: _, [] => false
  | a :: as, b :: bs =>
      if a < b then true else if b < a then false else charListLe as bs

/-- Lexicographic string comparison backing the sort. -/
def strLe (a b : String) : Bool :=
  charListLe a.data b.data

instance decRelStrLe : DecidableRel (fun a b : String => strLe a b = true) :=
  fun a b => instDecidableEqBool (strLe a b) true

instance strLeIsTotal : IsTotal String (fun a b : String => strLe a b = true) := by
  constructor
  have h : ∀ as bs, charListLe as bs = true ∨ charListLe bs as = true := by
    intro as
    induction as with
    | nil => intro bs; left; rfl
    | cons a as ih =>
      intro bs
      cases bs with
      | nil => right; rfl
      | cons b bs =>
        rcases lt_trichotomy a b with hab | hab | hab
        · left; simp [charListLe, hab]
        · subst hab
          rcases ih bs with hh | hh
          · left; simp [charListLe, lt_self_iff_false, hh]
          · right; simp [charListLe, lt_self_iff_false, hh]
        · right; simp [charListLe, hab]
  intro a b
  exact h a.data b.data

instance strLeIsTrans : IsTrans String (fun a b : String => strLe a b = true) := by
  constructor
  have h : ∀ as bs cs, charListLe as bs = true → charListLe bs cs = true →
      charListLe as cs = true := by
    intro as
    induction as with
    | nil => intro bs cs h1 h2; rfl
    | cons a as ih =>
      intro bs cs h1 h2
      cases bs with
      | nil => simp [charListLe] at h1
      | cons b bs =>
        cases cs with
        | nil => simp [charListLe] at h2
        | cons c cs =>
          rcases lt_trichotomy a b with hab | hab | hab
          · rcases lt_trichotomy b c with hbc | hbc | hbc
            · simp [charListLe, lt_trans hab hbc]
            · subst hbc; simp [charListLe, hab]
            · simp [charListLe, hbc, asymm hbc] at h2
          · subst hab
            simp [charListLe, lt_self_iff_false] at h1
            rcases lt_trichotomy a c with hac | hac | hac
            · simp [charListLe, hac]
            · subst hac; simp [charListLe, lt_self_iff_false] at h2 ⊢
              exact ih bs cs h1 h2
            · simp [charListLe, hac, asymm hac] at h2
          · simp [charListLe, hab, asymm hab] at h1
  intro a b c
  exact h a.data b.data c.data

/-- Accumulates the split parts from the right: the first component is
the part currently being built, the second the completed parts after
it. -/
def splitCharAux (sep : Char) : List Char → List Char × List (List Char)
  | [] => ([], [])
  | c :: rest =>
      let r := splitCharAux sep rest
      if c = sep then ([], r.1 :: r.2) else (c :: r.1, r.2)

/-- Model of JS String.prototype.split with a one-character separator
(the source only splits on a comma, a space or a colon): empty parts
are preserved and splitting the empty string yields one empty part.
The result always has at least one part. -/
def jsSplit (s : String) (sep : Char) : List String :=
  let r := splitCharAux sep s.data
  (r.1 :: r.2).map String.mk

/-- Model of JS String(n).padStart(2, the zero character). -/
def padStart2 (s : String) : String :=
  if s.length ≥ 2 then s else String.mk (List.replicate (2 - s.length) '0') ++ s

/-- Model of the JS Number coercion restricted to the strings the
pipeline feeds it (integer components of EXIF date strings): an empty or
all-whitespace string coerces to 0, a string of digits (with an optional
leading minus sign) to its value, anything else to NaN (none).
Fractional and exponent literals do not occur in EXIF date fields and
are mapped to NaN. -/
def jsNumber (s : String) : Option Int :=
  let t := (jsTrim s).data
  if t = [] then some 0
  else
    match t with
    | '-' :: rest => if rest ≠ [] ∧ rest.all Char.isDigit
        then some (-(digitsVal rest : Int)) else none
    | cs => if cs.all Char.isDigit then some (digitsVal cs : Int) else none
where
  /-- Decimal value of a digit string. -/
  digitsVal (cs : List Char) : Nat :=
    cs.foldl (fun acc c => acc * 10 + (c.toNat - 48)) 0

/-- Renders a JS number that may be NaN, as JS String(...) does. -/
def jsNumToString (n : Option Int) : String :=
  match n with
  | none => "NaN"
  | some v => toString v

/-! ## JS Date model

The source builds dates with new Date(year, monthIndex, day, h, m, s)
and reads them back with getFullYear / getMonth / getDate.  We model a
Date as its components; an Invalid Date (any NaN component) is the none
case, whose getters all return NaN.  Rolling-over of out-of-range
components is not modelled: every date the claims exercise is in
range, where the JS getters return the constructor arguments
unchanged. -/

structure DateParts where
  year : Int
  monthIndex : Int
  day : Int
  hour : Int
  minute : Int
  second : Int
  deriving DecidableEq, Repr

/-- A JS Date value: some parts, or the Invalid Date. -/
abbrev JSDate := Option DateParts

/-- Model of the JS Date constructor on component arguments, where a
NaN argument (none) produces an Invalid Date. -/
def mkJSDate (y mo d h mi s : Option Int) : JSDate :=
  match y, mo, d, h, mi, s with
  | some y, some mo, some d, some h, some mi, some s =>
      some ⟨y, mo, d, h, mi, s⟩
  | _, _, _, _, _, _ => none

def dateGetFullYear (d : JSDate) : Option Int := d.map DateParts.year
def dateGetMonth (d : JSDate) : Option Int := d.map DateParts.monthIndex
def dateGetDate (d : JSDate) : Option Int := d.map DateParts.day

/-! ## parseExifDateTime (source lines 260-268)

The source splits the EXIF string on a space into date and time parts;
when there is no space, timePart is undefined and undefined.split
throws a TypeError, modelled as Except.error.  Each colon-separated
component goes through Number; a missing component is undefined, which
Number turns into NaN. -/

/-- Reads component i of a split list the way JS array destructuring
does: a missing element is undefined, and Number(undefined) is NaN. -/
def jsComponent (parts : List String) (i : Nat) : Option Int :=
  match parts[i]? with
  | none => none
  | some s => jsNumber s

/-- Shallow embedding of parseExifDateTime.  Except.error models the
TypeError thrown when the string has no space (timePart undefined). -/
def parseExifDateTime (exifDateTime : String) : Except Unit JSDate :=
  match jsSplit exifDateTime ' ' with
  | datePart :: timePart :: _ =>
      let dc := jsSplit datePart ':'
      let tc := jsSplit timePart ':'
      .ok (mkJSDate (jsComponent dc 0) ((jsComponent dc 1).map (· - 1)) (jsComponent dc 2)
            (jsComponent tc 0) (jsComponent tc 1) (jsComponent tc 2))
  | _ => .error ()

/-! ## Reference location index and findNearestCity (source lines 102-120)

A city row carries the fields the source reads: city, iso2 (used for
the location tag) and lat/lng (used for the distance).  Coordinates are
modelled as rationals, standing for the parseFloat results.  The source
compares Math.sqrt of the sum of squares; since the square root is
strictly monotone on nonnegative reals, comparing the squared distances
is order-equivalent and keeps the definition inside ℚ. -/

structure City where
  city : String
  iso2 : String
  lat : ℚ
  lng : ℚ
  deriving DecidableEq, Repr

/-- Squared planar Euclidean distance between a query point and a city
row, the quantity whose square root the source minimizes. -/
def distance (latitude longitude : ℚ) (c : City) : ℚ :=
  (latitude - c.lat) * (latitude - c.lat) + (longitude - c.lng) * (longitude - c.lng)

/-- Model of the comparison distance < minDistance, where minDistance
starts at Infinity (none). -/
def ltMinDist (d : ℚ) (minD : Option ℚ) : Bool :=
  match minD with
  | none => true
  | some m => d < m

/-- One iteration of the forEach scan: replace the running best only on
a strictly smaller distance. -/
def findNearestStep (latitude longitude : ℚ) (st : Option City × Option ℚ)
    (c : City) : Option City × Option ℚ :=
  let d := distance latitude longitude c
  if ltMinDist d st.2 then (some c, some d) else st

/-- Shallow embedding of findNearestCity: a left fold over the table
with state (nearestCity, minDistance), starting from (null, Infinity). -/
def findNearestCity (cities : List City) (latitude longitude : ℚ) : Option City :=
  (cities.foldl (findNearestStep latitude longitude) (none, none)).1

/-! ## DMS conversion (source lines 244-257) -/

/-- Shallow embedding of convertDMSToDD on a well-formed
degree/minute/second triple; the S and W hemisphere references negate. -/
def convertDMSToDD (dms : ℚ × ℚ × ℚ) (hemisphere : String) : ℚ :=
  let dd := dms.1 + dms.2.1 / 60 + dms.2.2 / 3600
  if hemisphere = "S" ∨ hemisphere = "W" then -dd else dd

/-! ## Tag normalization (source line 386)

tags = response.toLowerCase().trim().split(comma).map(trim).sort().
JS Array.prototype.sort with no comparator orders strings
lexicographically; with a linear order and literal duplicates the
sorted result is unique, so any sorting algorithm is a faithful model
and we use insertionSort over the String order.  Nothing in the chain
removes empty parts. -/

/-- Shallow embedding of the keyword normalization chain. -/
def normalizeTags (response : String) : List String :=
  ((jsSplit (jsTrim (jsToLower response)) ',').map jsTrim).insertionSort
    (fun a b => strLe a b = true)

/-- Model of tag.replace over whitespace runs: each maximal run of
whitespace characters becomes one underscore (the /s+/g regex). -/
def replaceWsRuns (s : String) : String :=
  String.mk (go false s.data)
where
  /-- Walks the characters with a flag recording whether the previous
  character belonged to a whitespace run already rendered as an
  underscore. -/
  go : Bool → List Char → List Char
  | _, [] => []
  | inRun, c :: rest =>
      if c.isWhitespace then
        (if inRun then go true rest else '_' :: go true rest)
      else c :: go false rest

/-- The tagged destination filename built at source lines 410-416:
name, a hyphen, the hyphen-joined processed tags, then the extension. -/
def taggedFileName (name ext : String) (tags : List String) : String :=
  name ++ "-" ++ String.intercalate "-" (tags.map replaceWsRuns) ++ ext

/-! ## Path helpers

Node path.join / path.basename / path.parse are modelled for the
normalized relative segments the pipeline manufactures: join inserts a
single separator, basename takes the part after the last separator, and
parse splits the basename at its last dot (a name whose only dot leads
keeps its whole text as the name, as Node does). -/

def pathJoin (a b : String) : String := a ++ "/" ++ b

def pathBasename (p : String) : String :=
  (jsSplit p '/').getLastD ""

/-- Splits a basename into (name, ext) at the last dot, ext carrying
the dot. -/
def splitExtension (base : String) : String × String :=
  match (jsSplit base '.').reverse with
  | ext :: (rest@(_ :: _)) =>
      let name := String.intercalate "." rest.reverse
      if name = "" then (base, "") else (name, "." ++ ext)
  | _ => (base, "")

def pathParseName (p : String) : String := (splitExtension (pathBasename p)).1

def pathParseExt (p : String) : String := (splitExtension (pathBasename p)).2

/-- Model of path.relative(sourceDir, filePath) in the only situation
the pipeline creates: filePath lives under sourceDir. -/
def pathRelative (base p : String) : String :=
  if (base.data ++ ['/']).isPrefixOf p.data then String.mk (p.data.drop (base.length + 1))
  else p

/-! ## EXIF data model (source lines 122-131 and 319-375)

loadExifData never throws: an absent or unparseable block becomes an
empty one, so the extracted block is always a (possibly empty)
structure.  The fields the pipeline reads are the GPS IFD (modelled
only when GPSLatitude is present, the hasOwnProperty guard) and the two
date strings.  A decode exception during GPS extraction is caught and
leaves the location unset, which coincides with the absent-GPS case, so
malformed GPS IFDs are folded into gps = none. -/

structure GpsData where
  latDMS : ℚ × ℚ × ℚ
  latRef : String
  lngDMS : ℚ × ℚ × ℚ
  lngRef : String
  deriving DecidableEq, Repr

structure ExifData where
  gps : Option GpsData
  dateTimeDigitized : Option String
  dateTimeOriginal : Option String
  deriving DecidableEq, Repr

/-- An EXIF block with every field the pipeline reads absent. -/
def emptyExif : ExifData := ⟨none, none, none⟩

/-- Model of the JS truthiness test on a tag value: an absent field and
an empty string are both falsy. -/
def truthyStr (o : Option String) : Option String :=
  match o with
  | some "" => none
  | x => x

/-- Shallow embedding of the GPS branch (source lines 328-345): DMS
triples and hemisphere references are converted to signed decimal
degrees and sent through findNearestCity; the location tag is
city-iso2, left unset when the table gives no row. -/
def resolveLocation (cities : List City) (exd : ExifData) : Option String :=
  match exd.gps with
  | none => none
  | some g =>
      let latitude := convertDMSToDD g.latDMS g.latRef
      let longitude := convertDMSToDD g.lngDMS g.lngRef
      match findNearestCity cities latitude longitude with
      | some nearestCity => some (nearestCity.city ++ "-" ++ nearestCity.iso2)
      | none => none

/-- Shallow embedding of the date branch (source lines 352-369).  Both
field reads sit inside one try block: a parse throw on the digitized
field aborts the block before the original field is read, and a throw
on the original field leaves the date assigned from the digitized
field.  The truthiness guards mirror the JS if tests. -/
def resolveDate (date : JSDate) (exd : ExifData) : JSDate :=
  match truthyStr exd.dateTimeDigitized with
  | some s =>
      match parseExifDateTime s with
      | .error _ => date
      | .ok d =>
          match truthyStr exd.dateTimeOriginal with
          | some s2 =>
              match parseExifDateTime s2 with
              | .error _ => d
              | .ok d2 => d2
          | none => d
  | none =>
      match truthyStr exd.dateTimeOriginal with
      | some s2 =>
          match parseExifDateTime s2 with
          | .error _ => date
          | .ok d2 => d2
      | none => date

/-! ## Enrichment client (source lines 174-231, 384-392)

sendLLMRequest resolves to the response text on success; on a transport
failure, timeout or malformed response its catch handlers yield the
empty-array sentinel (or undefined), a non-string value.  The caller
immediately calls toLowerCase/trim/split on the keywords result, which
throws a TypeError on a non-string — modelled as Except.error from the
enrichment step.  The caption result is stored without inspection, so a
failed caption request flows on as a non-string value. -/

inductive LLMResult where
  /-- The request resolved and yielded the response text. -/
  | ok (response : String)
  /-- Transport failure, timeout or malformed response: the request
  layer yields a non-string sentinel value. -/
  | failed
  deriving DecidableEq, Repr

/-- Shallow embedding of lines 384-392: normalize the keywords response
when it is a string, throw (TypeError) when it is the failure
sentinel.  The pair carries the normalized tags and the raw caption
result. -/
def enrichStep (tagsResult captionResult : LLMResult) :
    Except Unit (List String × LLMResult) :=
  match tagsResult with
  | .failed => .error ()
  | .ok s => .ok (normalizeTags s, captionResult)

/-! ## Collision loop (source lines 421-428)

Every iteration re-consults the filesystem; the fallback candidates are
built from the stem and extension of the SOURCE file path, not from the
computed destination filename.  The source loop is unbounded; the model
runs it on explicit fuel, and resolveCollision supplies fuel beyond the
pigeonhole bound at which, were the candidates distinct, a free name
must already have been found. -/

def resolveCollisionGo (fsL : List String) (destPath fileName fileExt : String) :
    Nat → Nat → String → String
  | 0, _, cur => cur
  | fuel + 1, counter, cur =>
      if cur ∈ fsL then
        resolveCollisionGo fsL destPath fileName fileExt fuel (counter + 1)
          (pathJoin destPath (fileName ++ "_" ++ toString counter ++ fileExt))
      else cur

/-- Shallow embedding of the while loop, entered with counter 1 at the
initially computed destination file path. -/
def resolveCollision (fsL : List String) (destPath fileName fileExt initial : String) :
    String :=
  resolveCollisionGo fsL destPath fileName fileExt (fsL.length + 2) 1 initial

/-! ## Destination directory (source lines 394-401) -/

/-- Shallow embedding of the destination directory computation:
year, zero-padded month (getMonth is zero-based, hence the plus one)
and zero-padded day, the day segment extended with the location tag
when one resolved, joined under the destination root. -/
def destPathOf (destDir : String) (date : JSDate) (location : Option String) : String :=
  let year := jsNumToString (dateGetFullYear date)
  let month := padStart2 (jsNumToString ((dateGetMonth date).map (· + 1)))
  let day0 := padStart2 (jsNumToString (dateGetDate date))
  let day := match location with
    | some loc => day0 ++ "-" ++ loc
    | none => day0
  pathJoin (pathJoin (pathJoin destDir year) month) day

/-! ## Orchestrator (processFile, source lines 270-461)

The per-file state machine is embedded as a pure function from the
command-line configuration, the city table, the relevant filesystem
contents (the set of already-existing destination paths consulted by
fs.pathExists), and a per-file input record, to a terminal outcome plus
the ordered list of filesystem effects performed.  The outer try/catch
at lines 271/458 turns any thrown error into the errored outcome with
whatever effects had already run. -/

/-- The command-line options processFile reads (plus setGps, which is
parsed at lines 82-88 and read nowhere). -/
structure Argv where
  useOllama : Bool
  sourceDir : String
  processedDir : Option String
  setGps : Option String
  deriving DecidableEq, Repr

deriving instance DecidableEq for Except

/-- Per-file input: the path, the stat result, the EXIF block the bytes
decode to, the outcomes of the two enrichment requests, and the outcome
of the ffprobe call for videos (extractVideoMetadata rejects on an
ffprobe error, which the await turns into a throw). -/
structure FileInput where
  filePath : String
  isFile : Bool
  mtime : DateParts
  exif : ExifData
  llmTags : LLMResult
  llmCaption : LLMResult
  videoProbe : Except Unit Unit
  deriving DecidableEq, Repr

/-- Filesystem effects the pipeline performs, in program order. -/
inductive FsAction where
  | probeVideo (p : String)
  | ensureDir (p : String)
  /-- exifSavePicture: write the re-serialized image at the
  destination. -/
  | writeExif (p : String)
  | copy (src dst : String)
  | move (src dst : String)
  deriving DecidableEq, Repr

/-- Terminal states of the per-file state machine. -/
inductive Outcome where
  | notAFile
  | unsupported
  | skipped
  | errored
  | placed (dest : String)
  deriving DecidableEq, Repr

def JpegExtensions : List String := [".jpg", ".jpeg", ".jfif"]

def NonJpegExtensions : List String := [".heic", ".png", ".webp"]

def videoExtensions : List String := [".mp4", ".avi", ".mov"]

def isJpegTypeOf (lcfp : String) : Bool :=
  JpegExtensions.any fun item => jsEndsWith lcfp item

def isPictureOf (lcfp : String) : Bool :=
  isJpegTypeOf lcfp || NonJpegExtensions.any fun item => jsEndsWith lcfp item

def isVideoOf (lcfp : String) : Bool :=
  videoExtensions.any fun item => jsEndsWith lcfp item

/-- The line 311 guard that disables enrichment for webp and heic. -/
def isLLMExcludedOf (lcfp : String) : Bool :=
  jsEndsWith lcfp ".webp" || jsEndsWith lcfp ".heic"

/-- Body of processFile after classification, with the four extension
tests passed in as the flags the source computes at lines 289-311. -/
def processClassified (argv : Argv) (cities : List City) (fsL : List String)
    (destDir : String) (inp : FileInput)
    (isJpegType isPicture isVideo isLLMExcluded : Bool) : Outcome × List FsAction :=
  if isPicture || isVideo then
    let parsedName := pathParseName inp.filePath
    let parsedExt := pathParseExt inp.filePath
    let process_exif_data := isJpegType
    let process_video_data := isVideo
    let skip := isVideo
    let process_llm := argv.useOllama && !isVideo && !isLLMExcluded
    let date := if process_exif_data then resolveDate (some inp.mtime) inp.exif
      else some inp.mtime
    let location := if process_exif_data then resolveLocation cities inp.exif else none
    let probeTrace : List FsAction :=
      if process_video_data then [.probeVideo inp.filePath] else []
    match (if process_video_data then inp.videoProbe else .ok ()) with
    | .error _ => (.errored, probeTrace)
    | .ok _ =>
        match (if process_llm then (enrichStep inp.llmTags inp.llmCaption).map some
               else .ok none) with
        | .error _ => (.errored, probeTrace)
        | .ok enriched =>
            let tags : Option (List String) := enriched.map Prod.fst
            let destPath := destPathOf destDir date location
            let trace1 := probeTrace ++ [.ensureDir destPath]
            let tagsLenPos : Bool := match tags with
              | none => false
              | some l => l.length > 0
            let destFilePath0 :=
              if process_llm && tagsLenPos then
                pathJoin destPath (taggedFileName parsedName parsedExt (tags.getD []))
              else pathJoin destPath (pathBasename inp.filePath)
            if skip then (.skipped, trace1)
            else
              let destFilePath := resolveCollision fsL destPath parsedName parsedExt destFilePath0
              let trace2 := trace1 ++
                (if process_exif_data && tagsLenPos then [.writeExif destFilePath]
                 else [.copy inp.filePath destFilePath])
              let trace3 := trace2 ++
                (match argv.processedDir with
                 | some pd =>
                     [.move inp.filePath (pathJoin pd (pathRelative argv.sourceDir inp.filePath))]
                 | none => [])
              (.placed destFilePath, trace3)
  else (.unsupported, [])

/-- Shallow embedding of processFile: classify the lower-cased path and
run the pipeline body. -/
def processFile (argv : Argv) (cities : List City) (fsL : List String)
    (inp : FileInput) (destDir : String) : Outcome × List FsAction :=
  if inp.isFile then
    let lcfp := jsToLower inp.filePath
    processClassified argv cities fsL destDir inp
      (isJpegTypeOf lcfp) (isPictureOf lcfp) (isVideoOf lcfp) (isLLMExcludedOf lcfp)
  else (.notAFile, [])

/-! ## Proof-support definitions -/

/-- Structural form of the findNearestCity scan once the accumulator
holds a current best: walk the remaining rows, replacing the best only
on a strictly smaller distance. -/
def nearestGo (latitude longitude : ℚ) (b : City) : List City → City
  | [] => b
  | c :: rest =>
      if distance latitude longitude c < distance latitude longitude b
      then nearestGo latitude longitude c rest
      else nearestGo latitude longitude b rest

/-- The n-th fallback candidate of the collision loop: the SOURCE file
stem, an underscore, the counter, the source extension, joined under
the destination directory. -/
def candName (destPath fileName fileExt : String) (i : Nat) : String :=
  pathJoin destPath (fileName ++ "_" ++ toString i ++ fileExt)

/-- Recognizes the directory-creation effect. -/
def FsAction.isEnsureDir : FsAction → Bool
  | .ensureDir _ => true
  | _ => false

/-- The destination directory a JPEG-type file resolves to: date from
the EXIF precedence chain over the mtime baseline, location from the
GPS branch. -/
def jpegDestPath (cities : List City) (destDir : String) (inp : FileInput) : String :=
  destPathOf destDir (resolveDate (some inp.mtime) inp.exif) (resolveLocation cities inp.exif)

/-- The optional move of the original into the processed tree. -/
def moveTrace (argv : Argv) (inp : FileInput) : List FsAction :=
  match argv.processedDir with
  | some pd => [.move inp.filePath (pathJoin pd (pathRelative argv.sourceDir inp.filePath))]
  | none => []

/-- Collision-resolved target of a JPEG placed without tags. -/
def jpegPlainTarget (cities : List City) (fsL : List String) (destDir : String)
    (inp : FileInput) : String :=
  resolveCollision fsL (jpegDestPath cities destDir inp) (pathParseName inp.filePath)
    (pathParseExt inp.filePath)
    (pathJoin (jpegDestPath cities destDir inp) (pathBasename inp.filePath))

/-- Collision-resolved target of a JPEG placed with the tagged
filename built from keyword response s. -/
def jpegTaggedTarget (cities : List City) (fsL : List String) (destDir : String)
    (inp : FileInput) (s : String) : String :=
  resolveCollision fsL (jpegDestPath cities destDir inp) (pathParseName inp.filePath)
    (pathParseExt inp.filePath)
    (pathJoin (jpegDestPath cities destDir inp)
      (taggedFileName (pathParseName inp.filePath) (pathParseExt inp.filePath)
        (normalizeTags s)))

/-! ## Helper lemmas -/

theorem jsSplit_ne_nil (s : String) (sep : Char) : jsSplit s sep ≠ [] := by
  simp [jsSplit]

theorem normalizeTags_length_pos (s : String) : 0 < (normalizeTags s).length := by
  have hperm := List.perm_insertionSort (fun a b : String => strLe a b = true)
    ((jsSplit (jsTrim (jsToLower s)) ',').map jsTrim)
  have hlen : (normalizeTags s).length
      = ((jsSplit (jsTrim (jsToLower s)) ',').map jsTrim).length := hperm.length_eq
  rw [hlen, List.length_map]
  exact List.length_pos.mpr (jsSplit_ne_nil _ _)

theorem charListLe_not_lt (as bs : List Char) (h : charListLe as bs = true) :
    ¬ List.lt bs as := by
  induction as generalizing bs with
  | nil =>
    intro hlt
    cases bs with
    | nil => cases hlt
    | cons b bs => cases hlt
  | cons a as ih =>
    intro hlt
    cases bs with
    | nil => simp [charListLe] at h
    | cons b bs =>
      cases hlt with
      | head _ _ hba =>
          simp [charListLe, hba, asymm hba] at h
      | tail hnba hnab hlt2 =>
          simp [charListLe, hnba, hnab] at h
          exact ih bs h hlt2

/-- The executable lexicographic comparison implies the String order
used by Mathlib, tying the sortedness statement to the standard
order. -/
theorem strLe_imp_le (a b : String) (h : strLe a b = true) : a ≤ b := by
  intro hlt
  exact charListLe_not_lt a.data b.data h
    ((List.lt_iff_lex_lt _ _).mpr (String.lt_iff_toList_lt.mp hlt))

theorem processFile_classified (argv : Argv) (cities : List City) (fsL : List String)
    (inp : FileInput) (destDir : String) (h : inp.isFile = true) :
    processFile argv cities fsL inp destDir
    = processClassified argv cities fsL destDir inp
        (isJpegTypeOf (jsToLower inp.filePath)) (isPictureOf (jsToLower inp.filePath))
        (isVideoOf (jsToLower inp.filePath)) (isLLMExcludedOf (jsToLower inp.filePath)) := by
  simp [processFile, h]

/-! ## Claims -/

/-- C1: the claim states that a transport failure, timeout or malformed
response on either enrichment request degrades to an empty tag list and
the file is still placed.  The code contradicts this: sendLLMRequest
recovers from the failure by yielding a non-string sentinel, but the
caller immediately calls toLowerCase on it, which throws, so the file
reaches the errored terminal state with no filesystem effect — it is
never placed.  The second conjunct shows the same file being placed
when the keyword request succeeds, isolating the failure as the
cause. -/
theorem c1_keyword_failure_file_not_placed :
    processFile ⟨true, "src", none, none⟩ [] []
      ⟨"src/a.jpg", true, ⟨2024, 2, 2, 10, 0, 0⟩, emptyExif, .failed, .ok "a caption", .ok ()⟩
      "dest"
    = (.errored, [])
    ∧ processFile ⟨true, "src", none, none⟩ [] []
      ⟨"src/a.jpg", true, ⟨2024, 2, 2, 10, 0, 0⟩, emptyExif, .ok "beach, sea", .ok "a caption",
        .ok ()⟩ "dest"
    = (.placed "dest/2024/03/02/a-beach-sea.jpg",
       [.ensureDir "dest/2024/03/02", .writeExif "dest/2024/03/02/a-beach-sea.jpg"]) := by
  constructor
  · rfl
  · rfl

/-- C2 counterexample: with enrichment tags the computed destination
filename is photo-beach.jpg, and on a collision the loop resolves to
photo_1.jpg — the suffix is appended to the stem of the SOURCE
filename, not to the stem of the computed destination filename
photo-beach, which the claim would require to give
photo-beach_1.jpg. -/
theorem c2_counterexample :
    processFile ⟨true, "src", none, none⟩ [] ["dest/2024/03/02/photo-beach.jpg"]
      ⟨"src/photo.jpg", true, ⟨2024, 2, 2, 10, 0, 0⟩, emptyExif, .ok "beach", .ok "cap", .ok ()⟩
      "dest"
    = (.placed "dest/2024/03/02/photo_1.jpg",
       [.ensureDir "dest/2024/03/02", .writeExif "dest/2024/03/02/photo_1.jpg"])
    ∧ "dest/2024/03/02/photo_1.jpg" ≠ "dest/2024/03/02/photo-beach_1.jpg" := by
  constructor
  · rfl
  · decide

/-- C3 counterexample: the original timestamp is present and parseable,
yet it does not override the baseline, because the parse throw on the
digitized field aborts the shared try block before the original field
is read; the resolved date stays at the filesystem mtime. -/
theorem c3_counterexample :
    parseExifDateTime "2020:01:02 03:04:05" = .ok (some ⟨2020, 0, 2, 3, 4, 5⟩)
    ∧ resolveDate (some ⟨2024, 2, 2, 10, 0, 0⟩)
        ⟨none, some "garbage", some "2020:01:02 03:04:05"⟩
      = some ⟨2024, 2, 2, 10, 0, 0⟩
    ∧ (some ⟨2024, 2, 2, 10, 0, 0⟩ : JSDate) ≠ some ⟨2020, 0, 2, 3, 4, 5⟩ := by
  refine ⟨rfl, rfl, by decide⟩

/-- C4 counterexample: a JPEG carrying GPS coordinates, processed with
enrichment disabled, is placed by a plain copy; the metadata writer is
not invoked even though there are GPS coordinates to write, because the
exifAddCoordinates call is commented out and the writer guard tests
only the tag list. -/
theorem c4_counterexample :
    (ExifData.mk (some ⟨(48, 52, 30), "N", (2, 20, 0), "E"⟩) none none).gps.isSome = true
    ∧ processFile ⟨false, "src", none, none⟩ [⟨"Paris", "FR", 48875/1000, 2333/1000⟩] []
      ⟨"src/a.jpg", true, ⟨2024, 2, 2, 10, 0, 0⟩,
        ⟨some ⟨(48, 52, 30), "N", (2, 20, 0), "E"⟩, none, none⟩, .ok "x", .ok "y", .ok ()⟩
      "dest"
    = (.placed "dest/2024/03/02-Paris-FR/a.jpg",
       [.ensureDir "dest/2024/03/02-Paris-FR",
        .copy "src/a.jpg" "dest/2024/03/02-Paris-FR/a.jpg"]) := by
  refine ⟨rfl, rfl⟩

/-- C5 counterexample: normalization does not drop empty strings — an
empty part produced by consecutive commas survives into the tag
list. -/
theorem c5_counterexample :
    normalizeTags "beach,,sunset" = ["", "beach", "sunset"]
    ∧ "" ∈ normalizeTags "beach,,sunset" := by
  refine ⟨rfl, by decide⟩

/-- C5 amended: normalization lower-cases and trims the response,
splits on commas, trims each part and sorts lexicographically, keeping
empty parts; the normalized list is a sorted permutation of the trimmed
lower-cased comma parts, and the Beach/Sunset/Family example normalizes
to beach, family, sunset with filename suffix beach-family-sunset
before the extension. -/
theorem c5_amended_normalization (response : String) :
    (normalizeTags response).Sorted (· ≤ ·)
    ∧ (normalizeTags response).Perm ((jsSplit (jsTrim (jsToLower response)) ',').map jsTrim)
    ∧ normalizeTags "Beach, Sunset, Family" = ["beach", "family", "sunset"]
    ∧ taggedFileName "IMG" ".jpg" (normalizeTags "Beach, Sunset, Family")
      = "IMG-beach-family-sunset.jpg" := by
  refine ⟨?_, List.perm_insertionSort _ _, rfl, rfl⟩
  have hs := List.sorted_insertionSort (fun a b : String => strLe a b = true)
    ((jsSplit (jsTrim (jsToLower response)) ',').map jsTrim)
  exact List.Pairwise.imp (fun hab => strLe_imp_le _ _ hab) hs

/-- C9: the forced-location option setGps is parsed but read by no
processing code: two runs that differ only in its value produce the
same terminal outcome and the same filesystem effects on every input,
configuration, city table and filesystem state. -/
theorem c9_setGps_has_no_effect (useOllama : Bool) (sourceDir : String)
    (processedDir : Option String) (g1 g2 : Option String) (cities : List City)
    (fsL : List String) (inp : FileInput) (destDir : String) :
    processFile ⟨useOllama, sourceDir, processedDir, g1⟩ cities fsL inp destDir
    = processFile ⟨useOllama, sourceDir, processedDir, g2⟩ cities fsL inp destDir := rfl

/-- C7: before collision resolution the destination directory (the
source's destPath) is a deterministic pure function of the capture date
and the resolved location: it has the form destRoot/YYYY/MM/DD with the
location tag appended to the day segment when present, equal inputs
give equal paths, and the two spec examples compute as stated. -/
theorem c7_destPath_pure_function_and_format :
    (∀ (destDir : String) (p : DateParts) (loc : String),
        destPathOf destDir (some p) (some loc)
        = destDir ++ "/" ++ toString p.year ++ "/"
          ++ padStart2 (toString (p.monthIndex + 1)) ++ "/"
          ++ (padStart2 (toString p.day) ++ "-" ++ loc))
    ∧ (∀ (destDir : String) (p : DateParts),
        destPathOf destDir (some p) none
        = destDir ++ "/" ++ toString p.year ++ "/"
          ++ padStart2 (toString (p.monthIndex + 1)) ++ "/" ++ padStart2 (toString p.day))
    ∧ (∀ (destDir : String) (d1 d2 : JSDate) (l1 l2 : Option String),
        d1 = d2 → l1 = l2 → destPathOf destDir d1 l1 = destPathOf destDir d2 l2)
    ∧ destPathOf "root" (some ⟨2024, 2, 2, 10, 0, 0⟩) none = "root/2024/03/02"
    ∧ destPathOf "root" (some ⟨2023, 11, 25, 8, 0, 0⟩) (some "Paris-FR")
      = "root/2023/12/25-Paris-FR" := by
  refine ⟨?_, ?_, ?_, rfl, rfl⟩
  · intro destDir p loc
    simp [destPathOf, pathJoin, dateGetFullYear, dateGetMonth, dateGetDate, jsNumToString,
      String.append_assoc]
  · intro destDir p
    simp [destPathOf, pathJoin, dateGetFullYear, dateGetMonth, dateGetDate, jsNumToString,
      String.append_assoc]
  · intro destDir d1 d2 l1 l2 h1 h2
    rw [h1, h2]

/-- Witness for the determinism conjunct of the C7 theorem at a
concrete input. -/
theorem c7_destPath_pure_function_witness :
    destPathOf "root" (some ⟨2024, 2, 2, 10, 0, 0⟩) (some "Paris-FR")
    = destPathOf "root" (some ⟨2024, 2, 2, 10, 0, 0⟩) (some "Paris-FR") :=
  c7_destPath_pure_function_and_format.2.2.1 "root" (some ⟨2024, 2, 2, 10, 0, 0⟩)
    (some ⟨2024, 2, 2, 10, 0, 0⟩) (some "Paris-FR") (some "Paris-FR") rfl rfl

/-! ## Lemmas characterizing the nearest-city scan -/

theorem findNearestStep_some (latitude longitude db : ℚ) (b c : City) :
    findNearestStep latitude longitude (some b, some db) c
    = if distance latitude longitude c < db
      then (some c, some (distance latitude longitude c)) else (some b, some db) := by
  by_cases h : distance latitude longitude c < db
  · simp [findNearestStep, ltMinDist, h]
  · simp [findNearestStep, ltMinDist, h]

theorem foldl_findNearestStep (latitude longitude : ℚ) :
    ∀ (cs : List City) (b : City),
      cs.foldl (findNearestStep latitude longitude)
        (some b, some (distance latitude longitude b))
      = (some (nearestGo latitude longitude b cs),
         some (distance latitude longitude (nearestGo latitude longitude b cs))) := by
  intro cs
  induction cs with
  | nil => intro b; rfl
  | cons c cs ih =>
      intro b
      rw [List.foldl_cons, findNearestStep_some]
      by_cases h : distance latitude longitude c < distance latitude longitude b
      · rw [if_pos h, ih c]
        simp [nearestGo, h]
      · rw [if_neg h, ih b]
        simp [nearestGo, h]

theorem findNearestCity_cons (latitude longitude : ℚ) (b : City) (cs : List City) :
    findNearestCity (b :: cs) latitude longitude
    = some (nearestGo latitude longitude b cs) := by
  unfold findNearestCity
  rw [List.foldl_cons]
  have h0 : findNearestStep latitude longitude (none, none) b
      = (some b, some (distance latitude longitude b)) := rfl
  rw [h0, foldl_findNearestStep]

theorem nearestGo_min (latitude longitude : ℚ) :
    ∀ (cs : List City) (b x : City), x ∈ b :: cs →
      distance latitude longitude (nearestGo latitude longitude b cs)
      ≤ distance latitude longitude x := by
  intro cs
  induction cs with
  | nil =>
      intro b x hx
      rcases List.mem_singleton.mp hx with rfl
      exact le_refl _
  | cons c cs ih =>
      intro b x hx
      by_cases h : distance latitude longitude c < distance latitude longitude b
      · simp only [nearestGo, if_pos h]
        rcases List.mem_cons.mp hx with heq | hx2
        · rw [heq]
          exact le_trans (ih c c (List.mem_cons_self c cs)) (le_of_lt h)
        · exact ih c x hx2
      · simp only [nearestGo, if_neg h]
        rcases List.mem_cons.mp hx with heq | hx2
        · rw [heq]
          exact ih b b (List.mem_cons_self b cs)
        · rcases List.mem_cons.mp hx2 with heq | hx3
          · rw [heq]
            exact le_trans (ih b b (List.mem_cons_self b cs)) (not_lt.mp h)
          · exact ih b x (List.mem_cons_of_mem b hx3)

theorem nearestGo_first (latitude longitude : ℚ) :
    ∀ (cs : List City) (b : City),
      ∃ l1 l2, b :: cs = l1 ++ nearestGo latitude longitude b cs :: l2
        ∧ ∀ x ∈ l1, distance latitude longitude (nearestGo latitude longitude b cs)
            < distance latitude longitude x := by
  intro cs
  induction cs with
  | nil => exact fun b => ⟨[], [], rfl, by simp⟩
  | cons c cs ih =>
      intro b
      by_cases h : distance latitude longitude c < distance latitude longitude b
      · simp only [nearestGo, if_pos h]
        obtain ⟨l1, l2, heq, hlt⟩ := ih c
        refine ⟨b :: l1, l2, ?_, ?_⟩
        · rw [List.cons_append, ← heq]
        · intro x hx
          rcases List.mem_cons.mp hx with rfl | hx2
          · exact lt_of_le_of_lt
              (nearestGo_min latitude longitude cs c c (List.mem_cons_self c cs)) h
          · exact hlt x hx2
      · simp only [nearestGo, if_neg h]
        obtain ⟨l1, l2, heq, hlt⟩ := ih b
        cases l1 with
        | nil =>
            simp only [List.nil_append] at heq
            refine ⟨[], c :: cs, ?_, ?_⟩
            · rw [List.nil_append]
              injection heq with hb _
              rw [← hb]
            · intro x hx
              exact absurd hx (List.not_mem_nil x)
        | cons y l1t =>
            injection heq with hy hcs
            refine ⟨b :: c :: l1t, l2, ?_, ?_⟩
            · simp only [List.cons_append]
              exact congrArg (fun t => b :: c :: t) hcs
            · intro x hx
              have hrb : distance latitude longitude (nearestGo latitude longitude b cs)
                  < distance latitude longitude b := by
                have hyd := hlt y (List.mem_cons_self y l1t)
                rwa [← hy] at hyd
              rcases List.mem_cons.mp hx with heq2 | hx2
              · rw [heq2]; exact hrb
              · rcases List.mem_cons.mp hx2 with heq2 | hx3
                · rw [heq2]
                  exact lt_of_lt_of_le hrb (not_lt.mp h)
                · have hmem : x ∈ y :: l1t := List.mem_cons_of_mem y hx3
                  exact hlt x hmem

/-- C6: the nearest-city lookup returns none on an empty table and
otherwise the FIRST record of the table attaining the minimal planar
Euclidean distance to the query point: every record strictly before the
result is strictly farther (so exact ties keep the
first-encountered record), and no record anywhere is closer. -/
theorem c6_nearest_first_minimizer (latitude longitude : ℚ) :
    findNearestCity [] latitude longitude = none
    ∧ ∀ (b : City) (cs : List City), ∃ c l1 l2,
        findNearestCity (b :: cs) latitude longitude = some c
        ∧ b :: cs = l1 ++ c :: l2
        ∧ (∀ x ∈ l1, distance latitude longitude c < distance latitude longitude x)
        ∧ ∀ x ∈ b :: cs, distance latitude longitude c ≤ distance latitude longitude x := by
  refine ⟨rfl, ?_⟩
  intro b cs
  obtain ⟨l1, l2, heq, hlt⟩ := nearestGo_first latitude longitude cs b
  exact ⟨nearestGo latitude longitude b cs, l1, l2,
    findNearestCity_cons latitude longitude b cs, heq, hlt,
    fun x hx => nearestGo_min latitude longitude cs b x hx⟩

/-! ## Lemmas characterizing the collision loop -/

theorem resolveCollisionGo_succ (fsL : List String) (dp fn fe : String)
    (fuel counter : Nat) (cur : String) :
    resolveCollisionGo fsL dp fn fe (fuel + 1) counter cur
    = if cur ∈ fsL then
        resolveCollisionGo fsL dp fn fe fuel (counter + 1)
          (pathJoin dp (fn ++ "_" ++ toString counter ++ fe))
      else cur := rfl

theorem candN_not_mem (destPath fileName fileExt base : String) (N : Nat) (hN : 1 ≤ N)
    (hinj : ∀ i, i ≤ N → ∀ j, j ≤ N →
      candName destPath fileName fileExt i = candName destPath fileName fileExt j → i = j)
    (hbase : ∀ i, i ≤ N → 1 ≤ i → base ≠ candName destPath fileName fileExt i) :
    candName destPath fileName fileExt N
    ∉ base :: (List.range' 1 (N - 1)).map (candName destPath fileName fileExt) := by
  intro hmem
  rcases List.mem_cons.mp hmem with heq | hmem2
  · exact hbase N (le_refl N) hN heq.symm
  · obtain ⟨i, hi, hieq⟩ := List.mem_map.mp hmem2
    have hir := List.mem_range'_1.mp hi
    have hNi : N = i := hinj N (le_refl N) i (by omega) hieq.symm
    omega

theorem resolveCollisionGo_spec (destPath fileName fileExt base : String) (N : Nat)
    (hN : 1 ≤ N)
    (hinj : ∀ i, i ≤ N → ∀ j, j ≤ N →
      candName destPath fileName fileExt i = candName destPath fileName fileExt j → i = j)
    (hbase : ∀ i, i ≤ N → 1 ≤ i → base ≠ candName destPath fileName fileExt i) :
    ∀ d k, 1 ≤ k → k + d = N →
      resolveCollisionGo
        (base :: (List.range' 1 (N - 1)).map (candName destPath fileName fileExt))
        destPath fileName fileExt (d + 2) (k + 1) (candName destPath fileName fileExt k)
      = candName destPath fileName fileExt N := by
  intro d
  induction d with
  | zero =>
      intro k hk1 hkN
      have hkN2 : k = N := by omega
      have hf : 0 + 2 = 1 + 1 := by omega
      rw [hkN2, hf, resolveCollisionGo_succ,
        if_neg (candN_not_mem destPath fileName fileExt base N hN hinj hbase)]
  | succ d ih =>
      intro k hk1 hkN
      have hmem : candName destPath fileName fileExt k
          ∈ base :: (List.range' 1 (N - 1)).map (candName destPath fileName fileExt) := by
        apply List.mem_cons_of_mem
        exact List.mem_map.mpr ⟨k, List.mem_range'_1.mpr ⟨hk1, by omega⟩, rfl⟩
      have hfuel : d + 1 + 2 = (d + 2) + 1 := by omega
      rw [hfuel, resolveCollisionGo_succ, if_pos hmem]
      exact ih (k + 1) (by omega) (by omega)

/-- C2 amended: collision resolution re-checks the filesystem on every
attempt and appends an underscore-counter suffix to the stem of the
ORIGINAL SOURCE filename (path.parse of the source path), not to the
stem of the computed destination filename; the two coincide exactly
when no tag suffix was added.  Given the base computed path and the
source-stem suffixes 1 to N-1 all occupied, the loop terminates at the
free source-stem suffix N.  The injectivity and distinctness
hypotheses state that the bounded candidate names and the base path are
pairwise distinct strings, which concrete instances discharge by
evaluation. -/
theorem c2_amended_collision_suffix (destPath fileName fileExt base : String) (N : Nat)
    (hN : 1 ≤ N)
    (hinj : ∀ i, i ≤ N → ∀ j, j ≤ N →
      candName destPath fileName fileExt i = candName destPath fileName fileExt j → i = j)
    (hbase : ∀ i, i ≤ N → 1 ≤ i → base ≠ candName destPath fileName fileExt i) :
    resolveCollision
      (base :: (List.range' 1 (N - 1)).map (candName destPath fileName fileExt))
      destPath fileName fileExt base
    = candName destPath fileName fileExt N
    ∧ candName destPath fileName fileExt N
      ∉ base :: (List.range' 1 (N - 1)).map (candName destPath fileName fileExt) := by
  refine ⟨?_, candN_not_mem destPath fileName fileExt base N hN hinj hbase⟩
  unfold resolveCollision
  have hlen : (base :: (List.range' 1 (N - 1)).map
      (candName destPath fileName fileExt)).length + 2 = (N + 1) + 1 := by
    simp only [List.length_cons, List.length_map, List.length_range']
    omega
  rw [hlen, resolveCollisionGo_succ, if_pos (List.mem_cons_self base _)]
  have hfuel : N + 1 = (N - 1) + 2 := by omega
  rw [hfuel]
  exact resolveCollisionGo_spec destPath fileName fileExt base N hN hinj hbase (N - 1) 1
    (le_refl 1) (by omega)

/-- Witness for the amended C2 theorem: three occupants (the base path
and source-stem suffixes 1 and 2) resolve to suffix 3. -/
theorem c2_amended_witness :
    resolveCollision ["d/photo.jpg", "d/photo_1.jpg", "d/photo_2.jpg"]
      "d" "photo" ".jpg" "d/photo.jpg" = "d/photo_3.jpg"
    ∧ "d/photo_3.jpg" ∉ ["d/photo.jpg", "d/photo_1.jpg", "d/photo_2.jpg"] := by
  have h := c2_amended_collision_suffix "d" "photo" ".jpg" "d/photo.jpg" 3
    (by decide) (by decide) (by decide)
  exact h

/-- C3 amended: the resolved capture date follows this precedence —
the filesystem mtime is the baseline; a present (truthy) and parseable
digitized timestamp overrides it; a present and parseable original
timestamp overrides both; a parse throw on the original field keeps the
date resolved so far (digitized value, or baseline); but a parse throw
on the digitized field aborts the shared handler before the original
field is read, leaving the baseline even when a parseable original is
present.  No parse failure fails the file: resolveDate is total. -/
theorem c3_amended_date_precedence (mt : DateParts) (exd : ExifData) :
    (truthyStr exd.dateTimeDigitized = none → truthyStr exd.dateTimeOriginal = none →
        resolveDate (some mt) exd = some mt)
    ∧ (∀ s d, truthyStr exd.dateTimeDigitized = some s → parseExifDateTime s = .ok d →
        truthyStr exd.dateTimeOriginal = none → resolveDate (some mt) exd = d)
    ∧ (∀ s, truthyStr exd.dateTimeDigitized = some s → parseExifDateTime s = .error () →
        resolveDate (some mt) exd = some mt)
    ∧ (∀ s d s2 d2, truthyStr exd.dateTimeDigitized = some s → parseExifDateTime s = .ok d →
        truthyStr exd.dateTimeOriginal = some s2 → parseExifDateTime s2 = .ok d2 →
        resolveDate (some mt) exd = d2)
    ∧ (∀ s d s2, truthyStr exd.dateTimeDigitized = some s → parseExifDateTime s = .ok d →
        truthyStr exd.dateTimeOriginal = some s2 → parseExifDateTime s2 = .error () →
        resolveDate (some mt) exd = d)
    ∧ (∀ s2 d2, truthyStr exd.dateTimeDigitized = none →
        truthyStr exd.dateTimeOriginal = some s2 → parseExifDateTime s2 = .ok d2 →
        resolveDate (some mt) exd = d2)
    ∧ (∀ s2, truthyStr exd.dateTimeDigitized = none →
        truthyStr exd.dateTimeOriginal = some s2 → parseExifDateTime s2 = .error () →
        resolveDate (some mt) exd = some mt) := by
  refine ⟨?_, ?_, ?_, ?_, ?_, ?_, ?_⟩
  · intro h1 h2
    simp [resolveDate, h1, h2]
  · intro s d h1 h2 h3
    simp [resolveDate, h1, h2, h3]
  · intro s h1 h2
    simp [resolveDate, h1, h2]
  · intro s d s2 d2 h1 h2 h3 h4
    simp [resolveDate, h1, h2, h3, h4]
  · intro s d s2 h1 h2 h3 h4
    simp [resolveDate, h1, h2, h3, h4]
  · intro s2 d2 h1 h2 h3
    simp [resolveDate, h1, h2, h3]
  · intro s2 h1 h2 h3
    simp [resolveDate, h1, h2, h3]

/-- Witness for the amended C3 theorem: concrete EXIF blocks
exercising the digitized-throw case (the date stays at the baseline
although a parseable original is present) and the all-parseable case
(the original wins). -/
theorem c3_amended_witness :
    resolveDate (some ⟨2024, 2, 2, 10, 0, 0⟩)
      ⟨none, some "garbage", some "2020:01:02 03:04:05"⟩ = some ⟨2024, 2, 2, 10, 0, 0⟩
    ∧ resolveDate (some ⟨2024, 2, 2, 10, 0, 0⟩)
      ⟨none, some "2019:06:07 08:09:10", some "2020:01:02 03:04:05"⟩
      = some ⟨2020, 0, 2, 3, 4, 5⟩ := by
  constructor
  · exact (c3_amended_date_precedence ⟨2024, 2, 2, 10, 0, 0⟩
      ⟨none, some "garbage", some "2020:01:02 03:04:05"⟩).2.2.1 "garbage" rfl rfl
  · exact (c3_amended_date_precedence ⟨2024, 2, 2, 10, 0, 0⟩
      ⟨none, some "2019:06:07 08:09:10", some "2020:01:02 03:04:05"⟩).2.2.2.1
      "2019:06:07 08:09:10" (some ⟨2019, 5, 7, 8, 9, 10⟩) "2020:01:02 03:04:05"
      (some ⟨2020, 0, 2, 3, 4, 5⟩) rfl rfl rfl rfl

/-! ## Reduction lemmas for the orchestrator cases -/

theorem processClassified_jpeg_noLLM (argv : Argv) (cities : List City) (fsL : List String)
    (destDir : String) (inp : FileInput) (h : argv.useOllama = false) :
    processClassified argv cities fsL destDir inp true true false false
    = (.placed (jpegPlainTarget cities fsL destDir inp),
       [.ensureDir (jpegDestPath cities destDir inp),
        .copy inp.filePath (jpegPlainTarget cities fsL destDir inp)] ++ moveTrace argv inp) := by
  simp [processClassified, h, jpegPlainTarget, jpegDestPath, moveTrace]

theorem processClassified_jpeg_llmFailed (argv : Argv) (cities : List City)
    (fsL : List String) (destDir : String) (inp : FileInput)
    (h : argv.useOllama = true) (hT : inp.llmTags = .failed) :
    processClassified argv cities fsL destDir inp true true false false
    = (.errored, []) := by
  simp [processClassified, h, hT, enrichStep, Except.map]

theorem processClassified_jpeg_llmOk (argv : Argv) (cities : List City)
    (fsL : List String) (destDir : String) (inp : FileInput) (s : String)
    (h : argv.useOllama = true) (hT : inp.llmTags = .ok s) :
    processClassified argv cities fsL destDir inp true true false false
    = (.placed (jpegTaggedTarget cities fsL destDir inp s),
       [.ensureDir (jpegDestPath cities destDir inp),
        .writeExif (jpegTaggedTarget cities fsL destDir inp s)] ++ moveTrace argv inp) := by
  have hpos : decide ((normalizeTags s).length > 0) = true :=
    decide_eq_true (normalizeTags_length_pos s)
  simp [processClassified, h, hT, enrichStep, Except.map, hpos, jpegTaggedTarget,
    jpegDestPath, moveTrace]

theorem processClassified_video_probeError (argv : Argv) (cities : List City)
    (fsL : List String) (destDir : String) (inp : FileInput) (x : Bool)
    (hprobe : inp.videoProbe = .error ()) :
    processClassified argv cities fsL destDir inp false false true x
    = (.errored, [.probeVideo inp.filePath]) := by
  simp [processClassified, hprobe]

theorem processClassified_video_probeOk (argv : Argv) (cities : List City)
    (fsL : List String) (destDir : String) (inp : FileInput) (x : Bool)
    (hprobe : inp.videoProbe = .ok ()) :
    processClassified argv cities fsL destDir inp false false true x
    = (.skipped, [.probeVideo inp.filePath,
        .ensureDir (destPathOf destDir (some inp.mtime) none)]) := by
  simp [processClassified, hprobe]

/-- C4 amended: for a JPEG-type non-video file the metadata writer runs
exactly when enrichment is enabled and the keyword request succeeded
(the normalized tag list is then necessarily non-empty); the presence
of GPS coordinates plays no role (coordinate writing is disabled in the
source), and with enrichment disabled the orchestrator always performs
a plain byte-identical copy instead. -/
theorem c4_amended_writer_iff (argv : Argv) (cities : List City) (fsL : List String)
    (destDir : String) (inp : FileInput)
    (hf : inp.isFile = true)
    (hj : isJpegTypeOf (jsToLower inp.filePath) = true)
    (hv : isVideoOf (jsToLower inp.filePath) = false)
    (hx : isLLMExcludedOf (jsToLower inp.filePath) = false) :
    ((∃ p, FsAction.writeExif p ∈ (processFile argv cities fsL inp destDir).2)
      ↔ argv.useOllama = true ∧ ∃ s, inp.llmTags = .ok s)
    ∧ (argv.useOllama = false →
        ∃ dst, FsAction.copy inp.filePath dst ∈ (processFile argv cities fsL inp destDir).2) := by
  have hp : isPictureOf (jsToLower inp.filePath) = true := by
    simp [isPictureOf, hj]
  rw [processFile_classified argv cities fsL inp destDir hf, hj, hp, hv, hx]
  cases hOll : argv.useOllama with
  | false =>
      rw [processClassified_jpeg_noLLM argv cities fsL destDir inp hOll]
      refine ⟨?_, ?_⟩
      · constructor
        · intro hw
          obtain ⟨p, hmem⟩ := hw
          exfalso
          rcases List.mem_append.mp hmem with hmem1 | hmem2
          · simp at hmem1
          · unfold moveTrace at hmem2
            cases hpd : argv.processedDir with
            | none => rw [hpd] at hmem2; simp at hmem2
            | some pd => rw [hpd] at hmem2; simp at hmem2
        · intro hcon
          exact absurd hcon.1 (by simp [hOll])
      · intro _
        exact ⟨jpegPlainTarget cities fsL destDir inp, by simp⟩
  | true =>
      cases hT : inp.llmTags with
      | failed =>
          rw [processClassified_jpeg_llmFailed argv cities fsL destDir inp hOll hT]
          refine ⟨?_, ?_⟩
          · constructor
            · intro hw
              obtain ⟨p, hmem⟩ := hw
              simp at hmem
            · intro hcon
              obtain ⟨s, hs⟩ := hcon.2
              cases hs
          · intro hcon
            cases hcon
      | ok s =>
          rw [processClassified_jpeg_llmOk argv cities fsL destDir inp s hOll hT]
          refine ⟨?_, ?_⟩
          · constructor
            · intro _
              exact ⟨rfl, s, rfl⟩
            · intro _
              exact ⟨jpegTaggedTarget cities fsL destDir inp s, by simp⟩
          · intro hcon
            cases hcon

/-- Witness for the amended C4 theorem: a concrete JPEG with
enrichment disabled is placed by a plain copy. -/
theorem c4_amended_witness :
    ∃ dst, FsAction.copy "src/w.jpg" dst
      ∈ (processFile ⟨false, "src", none, none⟩ [] []
          ⟨"src/w.jpg", true, ⟨2024, 2, 2, 10, 0, 0⟩, emptyExif, .ok "x", .ok "y", .ok ()⟩
          "dest").2 :=
  (c4_amended_writer_iff ⟨false, "src", none, none⟩ [] [] "dest"
    ⟨"src/w.jpg", true, ⟨2024, 2, 2, 10, 0, 0⟩, emptyExif, .ok "x", .ok "y", .ok ()⟩
    rfl (by decide) (by decide) (by decide)).2 rfl

/-- C8 counterexample: a supported video whose container probe fails
terminates as an isolated per-file failure (the errored state), not as
skipped, refuting the universal "terminates as skipped". -/
theorem c8_counterexample :
    processFile ⟨false, "src", none, none⟩ [] []
      ⟨"src/clip.mp4", true, ⟨2024, 2, 2, 10, 0, 0⟩, emptyExif, .ok "x", .ok "y", .error ()⟩
      "dest"
    = (.errored, [.probeVideo "src/clip.mp4"])
    ∧ Outcome.errored ≠ Outcome.skipped := by
  exact ⟨rfl, by decide⟩

/-- C8 amended: a supported video is never copied, moved or
metadata-written by the pipeline — for any input and filesystem state
its trace contains no copy, move or write effect; when the container
probe succeeds the file terminates as skipped after exactly a probe and
the dated-directory creation, and a failing probe terminates it as an
isolated per-file failure. -/
theorem c8_amended_video_never_placed (argv : Argv) (cities : List City)
    (fsL : List String) (destDir : String) (inp : FileInput)
    (hf : inp.isFile = true)
    (hv : isVideoOf (jsToLower inp.filePath) = true)
    (hp : isPictureOf (jsToLower inp.filePath) = false) :
    (∀ s d, FsAction.copy s d ∉ (processFile argv cities fsL inp destDir).2)
    ∧ (∀ s d, FsAction.move s d ∉ (processFile argv cities fsL inp destDir).2)
    ∧ (∀ p, FsAction.writeExif p ∉ (processFile argv cities fsL inp destDir).2)
    ∧ (inp.videoProbe = .ok () →
        processFile argv cities fsL inp destDir
        = (.skipped, [.probeVideo inp.filePath,
            .ensureDir (destPathOf destDir (some inp.mtime) none)])) := by
  have hj : isJpegTypeOf (jsToLower inp.filePath) = false := by
    have hp2 := hp
    unfold isPictureOf at hp2
    exact (Bool.or_eq_false_iff.mp hp2).1
  rw [processFile_classified argv cities fsL inp destDir hf, hj, hp, hv]
  cases hprob : inp.videoProbe with
  | error e =>
      cases e
      rw [processClassified_video_probeError argv cities fsL destDir inp _ hprob]
      refine ⟨?_, ?_, ?_, ?_⟩
      · intro s d hmem; simp at hmem
      · intro s d hmem; simp at hmem
      · intro p hmem; simp at hmem
      · intro hok; cases hok
  | ok u =>
      cases u
      rw [processClassified_video_probeOk argv cities fsL destDir inp _ hprob]
      refine ⟨?_, ?_, ?_, ?_⟩
      · intro s d hmem; simp at hmem
      · intro s d hmem; simp at hmem
      · intro p hmem; simp at hmem
      · intro _; rfl

/-- Witness for the amended C8 theorem at a concrete probe-ok video. -/
theorem c8_amended_witness :
    processFile ⟨false, "src", none, none⟩ [] []
      ⟨"src/clip2.mp4", true, ⟨2024, 2, 2, 10, 0, 0⟩, emptyExif, .ok "x", .ok "y", .ok ()⟩
      "dest"
    = (.skipped, [.probeVideo "src/clip2.mp4", .ensureDir "dest/2024/03/02"]) :=
  (c8_amended_video_never_placed ⟨false, "src", none, none⟩ [] [] "dest"
    ⟨"src/clip2.mp4", true, ⟨2024, 2, 2, 10, 0, 0⟩, emptyExif, .ok "x", .ok "y", .ok ()⟩
    rfl (by decide) (by decide)).2.2.2 rfl

/-- C10 counterexample: a supported video whose probe fails never
reaches the directory-creation step — the trace holds only the probe
and no ensureDir effect, refuting the universal "creates the dated
directory for every supported media file". -/
theorem c10_counterexample :
    processFile ⟨false, "src", none, none⟩ [] []
      ⟨"src/movie.mov", true, ⟨2023, 4, 10, 0, 0, 0⟩, emptyExif, .ok "x", .ok "y", .error ()⟩
      "dest"
    = (.errored, [.probeVideo "src/movie.mov"])
    ∧ ([FsAction.probeVideo "src/movie.mov"].all fun a => !a.isEnsureDir) = true := by
  exact ⟨rfl, rfl⟩

/-- C10 amended: for every supported video whose container probe
succeeds, the dated destination directory destRoot/YYYY/MM/DD is
created before the skip decision applies (never with a location suffix:
videos skip the EXIF branch entirely), so a skipped video still leaves
the dated directory; a failing probe — or a failing enrichment request
for an image — throws before the directory step, and no directory is
created for that file. -/
theorem c10_amended_probed_video_creates_dir (argv : Argv) (cities : List City)
    (fsL : List String) (destDir : String) (inp : FileInput)
    (hf : inp.isFile = true)
    (hv : isVideoOf (jsToLower inp.filePath) = true)
    (hp : isPictureOf (jsToLower inp.filePath) = false)
    (hprobe : inp.videoProbe = .ok ()) :
    FsAction.ensureDir (destPathOf destDir (some inp.mtime) none)
      ∈ (processFile argv cities fsL inp destDir).2
    ∧ (processFile argv cities fsL inp destDir).1 = .skipped := by
  have hj : isJpegTypeOf (jsToLower inp.filePath) = false := by
    have hp2 := hp
    unfold isPictureOf at hp2
    exact (Bool.or_eq_false_iff.mp hp2).1
  rw [processFile_classified argv cities fsL inp destDir hf, hj, hp, hv,
    processClassified_video_probeOk argv cities fsL destDir inp _ hprobe]
  exact ⟨by simp, rfl⟩

/-- Witness for the amended C10 theorem at a concrete probe-ok
video. -/
theorem c10_amended_witness :
    FsAction.ensureDir "dest/2023/05/10"
      ∈ (processFile ⟨false, "src", none, none⟩ [] []
          ⟨"src/movie2.mov", true, ⟨2023, 4, 10, 0, 0, 0⟩, emptyExif, .ok "x", .ok "y", .ok ()⟩
          "dest").2 :=
  (c10_amended_probed_video_creates_dir ⟨false, "src", none, none⟩ [] [] "dest"
    ⟨"src/movie2.mov", true, ⟨2023, 4, 10, 0, 0, 0⟩, emptyExif, .ok "x", .ok "y", .ok ()⟩
    rfl (by decide) (by decide) rfl).1

end ImageOrganizer
